import Mathlib

/-
Verification of the pbrt4 scene-loader core (`src/scene.rs`, `Scene::load`).

The loader is a stateful directive interpreter: it consumes a stream of
already-parsed `Element` directives and builds a `Scene` while maintaining a
graphics-state stack, named symbol tables and an object/instance builder.
This development shallowly embeds that interpreter: each arm of the big
`match element` in `Scene::load` becomes an arm of `stepElement`, the loop
becomes `runElems`, and `Scene::load`'s trailing `debug_assert!`s (no-ops in
release builds) become the plain `Ok` return of `load`.

Numeric conventions of the embedding:
* `f32` scalars and the 4x4 `glam::Mat4` matrices are embedded over `ℚ`; the
  claims under study concern composition order, state restoration and control
  flow, none of which depend on float rounding.
* `usize` indices are `Nat` (the single `len - count` subtraction in the
  `ObjectEnd` arm is performed exactly as in the source, with `Nat`
  subtraction standing for the in-bounds `usize` subtraction).
* Rust panics (`unimplemented!`, `todo!`, out-of-bounds indexing), which
  abort the load without producing an `Error` value, are embedded as
  distinguished `Error.panic*` outcomes, kept separate from the real
  `Error` enum variants the code returns with `Err(..)`.
-/

namespace Pbrt

/-- Shallow embedding of `glam::Mat4`: a 4x4 rational matrix, stored as a
function of (row, column). `glam` stores columns, but its `Mul` is the
standard mathematical matrix product with column-vector convention, which is
what `Mat4.mul` implements. -/
def Mat4 : Type := Fin 4 → Fin 4 → ℚ

instance : DecidableEq Mat4 :=
  inferInstanceAs (DecidableEq (Fin 4 → Fin 4 → ℚ))

/-- The identity matrix, `glam::Mat4::IDENTITY` (also `Mat4`'s `Default`). -/
def Mat4.id : Mat4 := fun i j => if i = j then 1 else 0

/-- Matrix product, `glam`'s `Mat4 * Mat4`. -/
def Mat4.mul (a b : Mat4) : Mat4 := fun i j =>
  a i 0 * b 0 j + a i 1 * b 1 j + a i 2 * b 2 j + a i 3 * b 3 j

/-- Translation matrix, `glam::Mat4::from_translation`: identity with the
translation vector in the last column (column-vector convention). -/
def Mat4.fromTranslation (x y z : ℚ) : Mat4 := fun i j =>
  if i = j then 1
  else if j = 3 then (if i = 0 then x else if i = 1 then y else z)
  else 0

/-- Scale matrix, `glam::Mat4::from_scale`: diagonal `(x, y, z, 1)`. -/
def Mat4.fromScale (x y z : ℚ) : Mat4 := fun i j =>
  if i = j then (if i = 0 then x else if i = 1 then y else if i = 2 then z else 1)
  else 0

/-- Index embedding that skips row or column `r`, used for 3x3 minors. -/
def finSkip (r : Fin 4) (i : Fin 3) : Fin 4 :=
  if (i : ℕ) < (r : ℕ) then ⟨i.val, Nat.lt_succ_of_lt i.isLt⟩
  else ⟨i.val + 1, Nat.succ_lt_succ i.isLt⟩

/-- Determinant of a 3x3 rational matrix (Sarrus). -/
def det3 (a : Fin 3 → Fin 3 → ℚ) : ℚ :=
  a 0 0 * (a 1 1 * a 2 2 - a 1 2 * a 2 1)
  - a 0 1 * (a 1 0 * a 2 2 - a 1 2 * a 2 0)
  + a 0 2 * (a 1 0 * a 2 1 - a 1 1 * a 2 0)

/-- Signed cofactor of entry `(r, c)` of a 4x4 matrix. -/
def Mat4.cof (m : Mat4) (r c : Fin 4) : ℚ :=
  (if (r.val + c.val) % 2 = 0 then (1 : ℚ) else -1)
    * det3 (fun i j => m (finSkip r i) (finSkip c j))

/-- Determinant of a 4x4 matrix by cofactor expansion along the first row. -/
def Mat4.det (m : Mat4) : ℚ :=
  m 0 0 * m.cof 0 0 + m 0 1 * m.cof 0 1 + m 0 2 * m.cof 0 2 + m 0 3 * m.cof 0 3

/-- Modelled from the spec: `glam::Mat4::inverse` is a numeric primitive of
the external `glam` collaborator (spec section 1 lists numeric/matrix
primitives as out of scope). It is embedded as the standard adjugate inverse
over `ℚ`; no claim under study depends on its value. -/
def Mat4.inverse (m : Mat4) : Mat4 := fun i j => m.cof j i / m.det

/-- One scene-description parameter. Parameter payloads are produced by the
external tokenizer collaborator; only the name (used for merge/lookup) and an
opaque value are relevant to the interpreter core, so the value is embedded
as a string. -/
structure Param where
  name : String
  value : String
deriving DecidableEq, Repr

/-- Modelled from the spec: `ParamList` lives in the external `param` module
(absent from the sources); the spec describes it as an ordered parameter
list. -/
abbrev ParamList : Type := List Param

/-- Modelled from the spec: `ParamList::extend` appends the other list after
the receiver's own entries, so that when a pending overlay is extended onto a
directive's explicit parameters the overlay "does not override
explicitly-given values" (spec section 4.5): lookups are first-match. -/
def ParamList.extend (a b : ParamList) : ParamList := a ++ b

/-- First-match lookup of a parameter by name. -/
def ParamList.lookup (a : ParamList) (n : String) : Option String :=
  match a with
  | [] => none
  | p :: rest => if p.name = n then some p.value else ParamList.lookup rest n

/-- Modelled from the spec: the concrete entity types (`Camera`, `Film`, ...)
and their constructors `T::new(type_name, params)` are external collaborators
(spec section 6); the interpreter only forwards the type name and the merged
parameter list, so each entity is embedded as that record and each
constructor as total. -/
structure Camera where
  ty : String
  params : ParamList
deriving DecidableEq, Repr

/-- External entity record for `Film` (see `Camera`). -/
structure Film where
  ty : String
  params : ParamList
deriving DecidableEq, Repr

/-- External entity record for `Integrator` (see `Camera`). -/
structure Integrator where
  ty : String
  params : ParamList
deriving DecidableEq, Repr

/-- External entity record for `Accelerator` (see `Camera`). -/
structure Accelerator where
  ty : String
  params : ParamList
deriving DecidableEq, Repr

/-- External entity record for `PixelFilter` (see `Camera`). -/
structure PixelFilter where
  ty : String
  params : ParamList
deriving DecidableEq, Repr

/-- External entity record for `Sampler` (see `Camera`). -/
structure Sampler where
  ty : String
  params : ParamList
deriving DecidableEq, Repr

/-- External entity record for `Texture`. `Texture::new(name, ty, class,
params)`; `class` is a Lean keyword, so the field is `cls`. -/
structure Texture where
  name : String
  ty : String
  cls : String
  params : ParamList
deriving DecidableEq, Repr

/-- External entity record for `Material` (see `Camera`). -/
structure Material where
  ty : String
  params : ParamList
deriving DecidableEq, Repr

/-- External entity record for `Light` (see `Camera`). -/
structure Light where
  ty : String
  params : ParamList
deriving DecidableEq, Repr

/-- External entity record for `AreaLight` (see `Camera`). -/
structure AreaLight where
  ty : String
  params : ParamList
deriving DecidableEq, Repr

/-- External entity record for `Medium`; `Medium::new(params)` takes only a
parameter list. -/
structure Medium where
  params : ParamList
deriving DecidableEq, Repr

/-- External entity record for `Shape` (see `Camera`). -/
structure Shape where
  ty : String
  params : ParamList
deriving DecidableEq, Repr

/-- Modelled from the spec: `Options` lives in the external `types` module;
`Options::apply(param)` records a global option. It is embedded as the list
of applied option parameters. -/
abbrev Options : Type := ParamList

/-- `CameraEntity` from `scene.rs`: constructed camera plus its
`world_from_camera` transform. -/
structure CameraEntity where
  params : Camera
  transform : Mat4

/-- `ShapeEntity` from `scene.rs`. -/
structure ShapeEntity where
  params : Shape
  transform : Mat4
  reverse_orientation : Bool
  material_index : Option Nat
  area_light_index : Option Nat

/-- `Object` from `scene.rs`: an object template. -/
structure Object where
  name : String
  shape_start : Option Nat
  shape_count : Nat
  object_to_instance : Mat4

/-- `Instance` from `scene.rs`. -/
structure Instance where
  instance_to_world : Mat4
  object_index : Nat
  area_light_index : Option Nat
  reverse_orientation : Bool

/-- `Scene` from `scene.rs`: the loader's accumulator and output. Rust `Vec`
fields are Lean lists (append-only in the loader), `Option` fields are
`Option`. -/
structure Scene where
  start_time : ℚ
  end_time : ℚ
  options : Options
  camera : Option CameraEntity
  film : Option Film
  integrator : Option Integrator
  pixel_filter : Option PixelFilter
  accelerator : Option Accelerator
  sampler : Option Sampler
  textures : List Texture
  materials : List Material
  lights : List Light
  area_lights : List AreaLight
  mediums : List Medium
  shapes : List ShapeEntity
  objects : List Object
  instances : List Instance

/-- `Scene::default()`: zero times, no singletons, empty vectors. -/
def Scene.default : Scene :=
  ⟨0, 0, [], none, none, none, none, none, none, [], [], [], [], [], [], [], []⟩

/-- `State` from `scene.rs`: the graphics state. Borrowed `&str` medium names
are embedded as owned strings (their identity, not their lifetime, matters to
the claims). -/
structure State where
  reverse_orientation : Bool
  transform_matrix : Mat4
  current_inside_medium : Option String
  current_outside_medium : Option String
  material_index : Option Nat
  area_light_index : Option Nat
  active_object : Option Nat
  shape_count : Nat
  shape_params : ParamList
  light_params : ParamList
  material_params : ParamList
  medium_params : ParamList
  texture_params : ParamList

/-- `State::default()`. `glam::Mat4`'s `Default` is `IDENTITY`. -/
def State.default : State :=
  ⟨false, Mat4.id, none, none, none, none, none, 0, [], [], [], [], []⟩

/-- Load-terminating outcomes. The `tooManyEndAttributes`, `nestedObjects`,
`elementNotAllowed`, `notFound` and `worldAlreadyStarted` constructors embed
the like-named variants of the crate's `Error` enum (defined outside
`scene.rs`) that `Scene::load` returns with `Err(..)`. The `panic*`
constructors embed Rust panics (`unimplemented!`, `todo!`, out-of-bounds
`Vec` indexing), which abort the process and never produce an `Error`
value: they are deliberately distinct from every real error variant. -/
inductive Error where
  | tooManyEndAttributes
  | nestedObjects
  | elementNotAllowed
  | notFound
  | worldAlreadyStarted
  | panicUnimplemented
  | panicTodo
  | panicIndexOutOfBounds
deriving DecidableEq, Repr

/-- The directives handled by `Scene::load`, one constructor per `Element`
variant reaching the dispatcher (the `Element` enum itself lives in the
external parser module; payloads are embedded as the dispatcher consumes
them). `Rotate`, `LookAt` and `ConcatTransform` carry the matrix that the
external `glam` collaborator builds from their raw parameters; `Transform`
carries the matrix read from its column-major array. `Include` is handled
through the file system and is modelled separately (see `gzipSuffixCheck`);
`Attribute` is `attributeEl` and `Import` is `importEl` because `attribute`
and `import` are Lean keywords; `Option` is `optionEl`. -/
inductive Element where
  | attributeBegin
  | attributeEnd
  | attributeEl (target : String) (params : ParamList)
  | reverseOrientation
  | translate (x y z : ℚ)
  | identity
  | transform (m : Mat4)
  | concatTransform (m : Mat4)
  | scale (x y z : ℚ)
  | rotate (m : Mat4)
  | lookAt (m : Mat4)
  | coordinateSystem (name : String)
  | coordSysTransform (name : String)
  | camera (ty : String) (params : ParamList)
  | film (ty : String) (params : ParamList)
  | integrator (ty : String) (params : ParamList)
  | accelerator (ty : String) (params : ParamList)
  | pixelFilter (ty : String) (params : ParamList)
  | colorSpace
  | sampler (ty : String) (params : ParamList)
  | transformTimes (start finish : ℚ)
  | activeTransform
  | importEl (path : String)
  | worldBegin
  | optionEl (param : Param)
  | texture (name ty cls : String) (params : ParamList)
  | material (ty : String) (params : ParamList)
  | makeNamedMaterial (name : String) (params : ParamList)
  | namedMaterial (name : String)
  | lightSource (ty : String) (params : ParamList)
  | areaLightSource (ty : String) (params : ParamList)
  | shape (ty : String) (params : ParamList)
  | objectBegin (name : String)
  | objectEnd
  | objectInstance (name : String)
  | makeNamedMedium (name : String) (params : ParamList)
  | mediumInterface (interior exterior : String)

/-- Association-list embedding of `std::collections::HashMap<String, α>` as
used by the loader: `insert` prepends and `tblGet` takes the first match, so
later insertions shadow earlier ones exactly like `HashMap::insert`
overwriting. -/
def tblGet {α : Type} (t : List (String × α)) (n : String) : Option α :=
  match t with
  | [] => none
  | (k, v) :: rest => if k = n then some v else tblGet rest n

/-- The interpreter session: the local mutable state of `Scene::load`
(output scene, current graphics state, state stack, world flag, and the five
named tables). The include/parser stack is external file-driven control flow;
`runElems` runs over the flattened directive stream it produces. -/
structure Config where
  scene : Scene
  state : State
  states_stack : List State
  is_world_block : Bool
  named_coord_systems : List (String × Mat4)
  named_textures : List (String × Nat)
  named_materials : List (String × Nat)
  named_mediums : List (String × Nat)
  named_objects : List (String × Nat)

/-- The session state at the top of `Scene::load`: default scene, default
graphics state, empty stack and tables, world block not yet begun. -/
def initConfig : Config :=
  ⟨Scene.default, State.default, [], false, [], [], [], [], []⟩

/-- One iteration of `Scene::load`'s dispatch loop: the `match element` arm
for `e`, as a transformation of the session state. Arms guarded in the
source only by `debug_assert!` (the singleton checks on `Film`,
`Integrator`, `Accelerator`, `PixelFilter`, `Sampler`) are embedded with the
release-build semantics: the assert is a no-op and the field is overwritten.
The `Camera` arm has no guard at all in the source. -/
def stepElement (cfg : Config) (e : Element) : Except Error Config :=
  match e with
  | .attributeBegin =>
      .ok { cfg with states_stack := cfg.state :: cfg.states_stack }
  | .attributeEnd =>
      match cfg.states_stack with
      | s :: rest => .ok { cfg with state := s, states_stack := rest }
      | [] => .error .tooManyEndAttributes
  | .attributeEl target params =>
      match target with
      | "shape" => .ok { cfg with state :=
          { cfg.state with shape_params := cfg.state.shape_params.extend params } }
      | "light" => .ok { cfg with state :=
          { cfg.state with light_params := cfg.state.light_params.extend params } }
      | "material" => .ok { cfg with state :=
          { cfg.state with material_params := cfg.state.material_params.extend params } }
      | "medium" => .ok { cfg with state :=
          { cfg.state with medium_params := cfg.state.medium_params.extend params } }
      | "texture" => .ok { cfg with state :=
          { cfg.state with texture_params := cfg.state.texture_params.extend params } }
      | _ => .error .panicUnimplemented
  | .reverseOrientation =>
      .ok { cfg with state :=
        { cfg.state with reverse_orientation := !cfg.state.reverse_orientation } }
  | .translate x y z =>
      .ok { cfg with state := { cfg.state with
        transform_matrix := cfg.state.transform_matrix.mul (Mat4.fromTranslation x y z) } }
  | .identity =>
      .ok { cfg with state := { cfg.state with transform_matrix := Mat4.id } }
  | .transform m =>
      .ok { cfg with state := { cfg.state with transform_matrix := m } }
  | .concatTransform m =>
      .ok { cfg with state := { cfg.state with
        transform_matrix := cfg.state.transform_matrix.mul m } }
  | .scale x y z =>
      .ok { cfg with state := { cfg.state with
        transform_matrix := cfg.state.transform_matrix.mul (Mat4.fromScale x y z) } }
  | .rotate m =>
      .ok { cfg with state := { cfg.state with
        transform_matrix := cfg.state.transform_matrix.mul m } }
  | .lookAt m =>
      .ok { cfg with state := { cfg.state with
        transform_matrix := cfg.state.transform_matrix.mul m } }
  | .coordinateSystem name =>
      .ok { cfg with named_coord_systems :=
        (name, cfg.state.transform_matrix) :: cfg.named_coord_systems }
  | .coordSysTransform name =>
      match tblGet cfg.named_coord_systems name with
      | some m => .ok { cfg with state := { cfg.state with transform_matrix := m } }
      | none => .error .panicUnimplemented
  | .camera ty params =>
      let world_from_camera := cfg.state.transform_matrix.inverse
      .ok { cfg with
        named_coord_systems := ("camera", world_from_camera) :: cfg.named_coord_systems,
        scene := { cfg.scene with camera := some ⟨⟨ty, params⟩, world_from_camera⟩ } }
  | .film ty params =>
      .ok { cfg with scene := { cfg.scene with film := some ⟨ty, params⟩ } }
  | .integrator ty params =>
      .ok { cfg with scene := { cfg.scene with integrator := some ⟨ty, params⟩ } }
  | .accelerator ty params =>
      .ok { cfg with scene := { cfg.scene with accelerator := some ⟨ty, params⟩ } }
  | .pixelFilter ty params =>
      .ok { cfg with scene := { cfg.scene with pixel_filter := some ⟨ty, params⟩ } }
  | .colorSpace => .error .panicTodo
  | .sampler ty params =>
      .ok { cfg with scene := { cfg.scene with sampler := some ⟨ty, params⟩ } }
  | .transformTimes start finish =>
      if cfg.is_world_block then .error .worldAlreadyStarted
      else .ok { cfg with scene :=
        { cfg.scene with start_time := start, end_time := finish } }
  | .activeTransform => .error .panicTodo
  | .importEl _ => .error .panicTodo
  | .worldBegin =>
      .ok { cfg with
        is_world_block := true,
        state := { cfg.state with transform_matrix := Mat4.id } }
  | .optionEl p =>
      .ok { cfg with scene := { cfg.scene with options := cfg.scene.options ++ [p] } }
  | .texture name ty cls params =>
      let merged := params.extend cfg.state.texture_params
      let index := cfg.scene.textures.length
      .ok { cfg with
        scene := { cfg.scene with textures := cfg.scene.textures ++ [⟨name, ty, cls, merged⟩] },
        named_textures := (name, index) :: cfg.named_textures }
  | .material ty params =>
      let merged := params.extend cfg.state.material_params
      let index := cfg.scene.materials.length
      .ok { cfg with
        scene := { cfg.scene with materials := cfg.scene.materials ++ [⟨ty, merged⟩] },
        state := { cfg.state with material_index := some index } }
  | .makeNamedMaterial name params =>
      let merged := params.extend cfg.state.material_params
      let index := cfg.scene.materials.length
      .ok { cfg with
        scene := { cfg.scene with materials := cfg.scene.materials ++ [⟨name, merged⟩] },
        named_materials := (name, index) :: cfg.named_materials }
  | .namedMaterial name =>
      .ok { cfg with state :=
        { cfg.state with material_index := tblGet cfg.named_materials name } }
  | .lightSource ty params =>
      .ok { cfg with scene := { cfg.scene with lights := cfg.scene.lights ++ [⟨ty, params⟩] } }
  | .areaLightSource ty params =>
      let merged := params.extend cfg.state.light_params
      let index := cfg.scene.area_lights.length
      .ok { cfg with
        scene := { cfg.scene with area_lights := cfg.scene.area_lights ++ [⟨ty, merged⟩] },
        state := { cfg.state with area_light_index := some index } }
  | .shape ty params =>
      let merged := params.extend cfg.state.shape_params
      let entity : ShapeEntity :=
        ⟨⟨ty, merged⟩, cfg.state.transform_matrix, cfg.state.reverse_orientation,
          cfg.state.material_index, cfg.state.area_light_index⟩
      let state2 :=
        if cfg.state.active_object.isSome then
          { cfg.state with shape_count := cfg.state.shape_count + 1 }
        else cfg.state
      .ok { cfg with
        scene := { cfg.scene with shapes := cfg.scene.shapes ++ [entity] },
        state := state2 }
  | .objectBegin name =>
      if cfg.state.active_object.isSome then .error .nestedObjects
      else
        let index := cfg.scene.objects.length
        .ok { cfg with
          states_stack := cfg.state :: cfg.states_stack,
          scene := { cfg.scene with
            objects := cfg.scene.objects ++ [⟨name, none, 0, cfg.state.transform_matrix⟩] },
          state := { cfg.state with active_object := some index },
          named_objects := (name, index) :: cfg.named_objects }
  | .objectEnd =>
      match cfg.state.active_object with
      | none => .error .elementNotAllowed
      | some object_index =>
          match cfg.scene.objects[object_index]? with
          | none => .error .panicIndexOutOfBounds
          | some obj =>
              let obj2 : Object :=
                { obj with
                  shape_count := cfg.state.shape_count,
                  shape_start :=
                    if cfg.state.shape_count > 0 then
                      some (cfg.scene.shapes.length - cfg.state.shape_count)
                    else obj.shape_start }
              match cfg.states_stack with
              | s :: rest =>
                  .ok { cfg with
                    scene := { cfg.scene with
                      objects := cfg.scene.objects.set object_index obj2 },
                    state := s,
                    states_stack := rest }
              | [] => .error .elementNotAllowed
  | .objectInstance name =>
      match tblGet cfg.named_objects name with
      | none => .error .notFound
      | some object_index =>
          .ok { cfg with scene := { cfg.scene with
            instances := cfg.scene.instances ++
              [⟨cfg.state.transform_matrix, object_index,
                cfg.state.area_light_index, cfg.state.reverse_orientation⟩] } }
  | .makeNamedMedium name params =>
      let merged := params.extend cfg.state.medium_params
      let index := cfg.scene.mediums.length
      .ok { cfg with
        scene := { cfg.scene with mediums := cfg.scene.mediums ++ [⟨merged⟩] },
        named_mediums := (name, index) :: cfg.named_mediums }
  | .mediumInterface interior exterior =>
      .ok { cfg with state := { cfg.state with
        current_inside_medium := some interior,
        current_outside_medium := some exterior } }

/-- The dispatch loop of `Scene::load` over a flattened directive stream:
run directives left to right, aborting at the first error. -/
def runElems (cfg : Config) : List Element → Except Error Config
  | [] => .ok cfg
  | e :: rest =>
      match stepElement cfg e with
      | .ok cfg2 => runElems cfg2 rest
      | .error err => .error err

/-- `Scene::load` on a flattened directive stream. After the loop the source
has only `debug_assert!(states_stack.is_empty())` and
`debug_assert!(is_world_block)`, which are no-ops in release builds, and then
returns `Ok(scene)` unconditionally. -/
def load (elems : List Element) : Except Error Scene :=
  match runElems initConfig elems with
  | .ok cfg => .ok cfg.scene
  | .error err => .error err

/-- The file-name component of a path: everything after the last `/`
(embedding `std::path::Path::file_name` for the well-formed relative and
absolute file paths fed to `Include`). -/
def fileNamePart (p : List Char) : List Char :=
  (p.reverse.takeWhile (fun c => c ≠ '/')).reverse

/-- The characters after the last `.` of a file name. -/
def afterLastDot (f : List Char) : List Char :=
  (f.reverse.takeWhile (fun c => c ≠ '.')).reverse

/-- Embedding of `std::path::Path::extension` on the file name: `none` when
the name has no `.` past its first character (no dot at all, or a lone
leading dot as in hidden files), otherwise the portion after the final `.`
(which therefore never itself contains a `.`). -/
def extensionOf (f : List Char) : Option (List Char) :=
  if '.' ∈ f.drop 1 then some (afterLastDot f) else none

/-- Embedding of `str::ends_with`: `s` ends with the suffix `suffix`. -/
def strEndsWith (s suffix : List Char) : Bool :=
  decide (s.drop (s.length - suffix.length) = suffix)

/-- The gzip test of the `Include` arm (`scene.rs` lines 299-303): take the
path's extension via `Path::extension` and ask whether it ends with the
string `".gz"`; when (and only when) this is true the arm runs
`todo!("Gzip compression")`. -/
def gzipSuffixCheck (path : List Char) : Bool :=
  match extensionOf (fileNamePart path) with
  | some ext => strEndsWith ext ('.' :: 'g' :: 'z' :: [])
  | none => false

/-- The outcome of the gzip gate inside the `Include` arm: a panic
(`todo!`) when the check fires, otherwise control proceeds to parsing the
included file's contents. -/
def includeGzipGate (path : List Char) : Except Error Unit :=
  if gzipSuffixCheck path then .error .panicTodo else .ok ()



/-- Recognizer for `Shape` directives. -/
def isShapeElem : Element → Bool
  | .shape _ _ => true
  | _ => false

/-- The state-mutating directives named by the attribute-scoping claim:
transform changes, `Material`, `ReverseOrientation`, `Attribute` overlays
with a recognized target, and `MediumInterface`. None of them touch the
graphics-state stack. -/
def scopeNeutral : Element → Bool
  | .translate _ _ _ => true
  | .identity => true
  | .transform _ => true
  | .concatTransform _ => true
  | .scale _ _ _ => true
  | .rotate _ => true
  | .lookAt _ => true
  | .reverseOrientation => true
  | .material _ _ => true
  | .mediumInterface _ _ => true
  | .attributeEl t _ =>
      t == "shape" || t == "light" || t == "material" || t == "medium" || t == "texture"
  | _ => false

/-- Invariant on a single graphics state: outside an object block the running
shape counter is zero. -/
def stateOk (s : State) : Prop := s.active_object = none → s.shape_count = 0

/-- Invariant on a whole interpreter session: the current state and every
snapshot on the stack satisfy `stateOk`. -/
def configOk (c : Config) : Prop :=
  stateOk c.state ∧ ∀ s ∈ c.states_stack, stateOk s

theorem runElems_append (l1 l2 : List Element) : ∀ cfg : Config,
    runElems cfg (l1 ++ l2) =
      match runElems cfg l1 with
      | .ok c => runElems c l2
      | .error e => .error e := by
  induction l1 with
  | nil => intro cfg; rfl
  | cons d rest ih =>
      intro cfg
      simp only [List.cons_append, runElems]
      cases stepElement cfg d with
      | ok c => exact ih c
      | error e => rfl

theorem stepElement_neutral (cfg : Config) (e : Element) (h : scopeNeutral e = true) :
    ∃ cfg2, stepElement cfg e = .ok cfg2 ∧ cfg2.states_stack = cfg.states_stack := by
  cases e with
  | attributeEl t p =>
      simp only [scopeNeutral, Bool.or_eq_true, beq_iff_eq] at h
      rcases h with ((((h | h) | h) | h) | h) <;> subst h <;> exact ⟨_, rfl, rfl⟩
  | _ => first
    | exact ⟨_, rfl, rfl⟩
    | simp [scopeNeutral] at h

theorem runElems_neutral (ds : List Element) (h : ∀ d ∈ ds, scopeNeutral d = true) :
    ∀ cfg : Config, ∃ cfg2, runElems cfg ds = .ok cfg2 ∧
      cfg2.states_stack = cfg.states_stack := by
  induction ds with
  | nil => intro cfg; exact ⟨cfg, rfl, rfl⟩
  | cons d rest ih =>
      intro cfg
      obtain ⟨c1, hc1, hs1⟩ := stepElement_neutral cfg d (h d (by simp))
      obtain ⟨c2, hc2, hs2⟩ := ih (fun x hx => h x (by simp [hx])) c1
      refine ⟨c2, ?_, by rw [hs2, hs1]⟩
      simp only [runElems, hc1]
      exact hc2



/-- Claim C2: an `AttributeBegin`, any sequence of state-mutating directives,
then `AttributeEnd` restores the graphics state exactly. -/
theorem attribute_block_restores_state (cfg : Config) (ds : List Element)
    (h : ∀ d ∈ ds, scopeNeutral d = true) :
    ∃ cfg2, runElems cfg (Element.attributeBegin :: ds ++ [Element.attributeEnd]) = .ok cfg2 ∧
      cfg2.state = cfg.state ∧ cfg2.states_stack = cfg.states_stack := by
  obtain ⟨c2, hc2, hs2⟩ :=
    runElems_neutral ds h { cfg with states_stack := cfg.state :: cfg.states_stack }
  refine ⟨{ c2 with state := cfg.state, states_stack := cfg.states_stack }, ?_, rfl, rfl⟩
  have e1 : runElems cfg (Element.attributeBegin :: ds ++ [Element.attributeEnd])
      = runElems { cfg with states_stack := cfg.state :: cfg.states_stack }
          (ds ++ [Element.attributeEnd]) := rfl
  rw [e1, runElems_append, hc2]
  show runElems c2 [Element.attributeEnd] = _
  simp only [runElems, stepElement, hs2]

theorem shape_of_isShapeElem (e : Element) (h : isShapeElem e = true) :
    ∃ ty p, e = Element.shape ty p := by
  cases e <;> simp [isShapeElem] at h
  exact ⟨_, _, rfl⟩

theorem runElems_shapes (ds : List Element) (h : ∀ d ∈ ds, isShapeElem d = true) :
    ∀ cfg : Config, cfg.state.active_object.isSome = true →
    ∃ cfg2, runElems cfg ds = .ok cfg2 ∧
      cfg2.state.active_object = cfg.state.active_object ∧
      cfg2.state.shape_count = cfg.state.shape_count + ds.length ∧
      cfg2.scene.shapes.length = cfg.scene.shapes.length + ds.length ∧
      cfg2.scene.objects = cfg.scene.objects ∧
      cfg2.states_stack = cfg.states_stack := by
  induction ds with
  | nil => intro cfg _; exact ⟨cfg, rfl, rfl, rfl, rfl, rfl, rfl⟩
  | cons d rest ih =>
      intro cfg ha
      obtain ⟨ty, p, rfl⟩ := shape_of_isShapeElem d (h d (by simp))
      have hstep : stepElement cfg (Element.shape ty p) = .ok
          { cfg with
            scene := { cfg.scene with shapes := cfg.scene.shapes ++
              [⟨⟨ty, p.extend cfg.state.shape_params⟩, cfg.state.transform_matrix,
                cfg.state.reverse_orientation, cfg.state.material_index,
                cfg.state.area_light_index⟩] },
            state := { cfg.state with shape_count := cfg.state.shape_count + 1 } } := by
        simp [stepElement, ha]
      obtain ⟨cfg2, h2, hao, hsc, hsh, hob, hst⟩ :=
        ih (fun x hx => h x (by simp [hx]))
          { cfg with
            scene := { cfg.scene with shapes := cfg.scene.shapes ++
              [⟨⟨ty, p.extend cfg.state.shape_params⟩, cfg.state.transform_matrix,
                cfg.state.reverse_orientation, cfg.state.material_index,
                cfg.state.area_light_index⟩] },
            state := { cfg.state with shape_count := cfg.state.shape_count + 1 } }
          (by simpa using ha)
      refine ⟨cfg2, ?_, by simpa using hao, ?_, ?_, by simpa using hob,
        by simpa using hst⟩
      · simp only [runElems, hstep]
        exact h2
      · simp only [List.length_cons]
        simp at hsc
        omega
      · simp only [List.length_cons]
        simp [List.length_append] at hsh
        omega



theorem set_concat_length {α : Type} (l : List α) (a b : α) :
    (l ++ [a]).set l.length b = l ++ [b] := by
  induction l with
  | nil => rfl
  | cons x xs ih => simp [List.set, ih]

theorem object_block_aux (cfg : Config) (nm : String) (ds : List Element)
    (hao : cfg.state.active_object = none)
    (hsc : cfg.state.shape_count = 0)
    (hds : ∀ d ∈ ds, isShapeElem d = true) :
    ∃ cfg2 obj,
      runElems cfg (Element.objectBegin nm :: ds ++ [Element.objectEnd]) = .ok cfg2 ∧
      cfg2.scene.objects[cfg.scene.objects.length]? = some obj ∧
      obj.shape_count = ds.length ∧
      obj.shape_start = (if ds.length = 0 then none else some cfg.scene.shapes.length) ∧
      cfg2.scene.shapes.length = cfg.scene.shapes.length + ds.length ∧
      cfg2.state = cfg.state := by
  have hstepB : stepElement cfg (Element.objectBegin nm) = .ok
      { cfg with
        states_stack := cfg.state :: cfg.states_stack,
        scene := { cfg.scene with objects := cfg.scene.objects ++
          [⟨nm, none, 0, cfg.state.transform_matrix⟩] },
        state := { cfg.state with active_object := some cfg.scene.objects.length },
        named_objects := (nm, cfg.scene.objects.length) :: cfg.named_objects } := by
    simp [stepElement, hao]
  obtain ⟨cfgS, hrun, hao2, hsc2, hsh2, hob2, hst2⟩ :=
    runElems_shapes ds hds
      { cfg with
        states_stack := cfg.state :: cfg.states_stack,
        scene := { cfg.scene with objects := cfg.scene.objects ++
          [⟨nm, none, 0, cfg.state.transform_matrix⟩] },
        state := { cfg.state with active_object := some cfg.scene.objects.length },
        named_objects := (nm, cfg.scene.objects.length) :: cfg.named_objects }
      (by simp)
  simp only at hao2 hsc2 hsh2 hob2 hst2
  rw [hsc] at hsc2
  simp only [Nat.zero_add] at hsc2
  have hget : cfgS.scene.objects[cfg.scene.objects.length]? =
      some ⟨nm, none, 0, cfg.state.transform_matrix⟩ := by
    rw [hob2]
    exact List.getElem?_concat_length _ _
  have hstepE : stepElement cfgS Element.objectEnd = .ok
      { cfgS with
        scene := { cfgS.scene with
          objects := cfgS.scene.objects.set cfg.scene.objects.length
            ⟨nm,
             (if cfgS.state.shape_count > 0 then
                some (cfgS.scene.shapes.length - cfgS.state.shape_count)
              else none),
             cfgS.state.shape_count, cfg.state.transform_matrix⟩ },
        state := cfg.state,
        states_stack := cfg.states_stack } := by
    simp only [stepElement, hao2, hget, hst2]
  refine ⟨{ cfgS with
      scene := { cfgS.scene with
        objects := cfgS.scene.objects.set cfg.scene.objects.length
          ⟨nm,
           (if cfgS.state.shape_count > 0 then
              some (cfgS.scene.shapes.length - cfgS.state.shape_count)
            else none),
           cfgS.state.shape_count, cfg.state.transform_matrix⟩ },
      state := cfg.state,
      states_stack := cfg.states_stack },
    ⟨nm,
     (if cfgS.state.shape_count > 0 then
        some (cfgS.scene.shapes.length - cfgS.state.shape_count)
      else none),
     cfgS.state.shape_count, cfg.state.transform_matrix⟩,
    ?_, ?_, ?_, ?_, ?_, rfl⟩
  · have e1 : runElems cfg (Element.objectBegin nm :: ds ++ [Element.objectEnd])
        = runElems
          { cfg with
            states_stack := cfg.state :: cfg.states_stack,
            scene := { cfg.scene with objects := cfg.scene.objects ++
              [⟨nm, none, 0, cfg.state.transform_matrix⟩] },
            state := { cfg.state with active_object := some cfg.scene.objects.length },
            named_objects := (nm, cfg.scene.objects.length) :: cfg.named_objects }
          (ds ++ [Element.objectEnd]) := by
      simp only [runElems, hstepB]
      rfl
    rw [e1, runElems_append, hrun]
    show runElems cfgS [Element.objectEnd] = _
    simp only [runElems, hstepE]
  · show (cfgS.scene.objects.set cfg.scene.objects.length _)[cfg.scene.objects.length]?
        = some _
    rw [hob2, set_concat_length]
    exact List.getElem?_concat_length _ _
  · exact hsc2
  · show (if cfgS.state.shape_count > 0 then
        some (cfgS.scene.shapes.length - cfgS.state.shape_count) else none)
      = (if ds.length = 0 then none else some cfg.scene.shapes.length)
    rw [hsc2, hsh2]
    rcases Nat.eq_zero_or_pos ds.length with h0 | h0
    · simp [h0]
    · have hne : ¬ ds.length = 0 := by omega
      rw [if_pos h0, if_neg hne]
      congr 1
      omega
  · show cfgS.scene.shapes.length = cfg.scene.shapes.length + ds.length
    exact hsh2


/-- Witness for claim C2 at a concrete block mutating the transform,
orientation, material, a pending overlay and the medium interface. -/
theorem attribute_block_restores_state_witness :
    (∀ d ∈ [Element.translate 1 0 0, Element.reverseOrientation,
        Element.material "diffuse" [], Element.attributeEl "shape" [⟨"alpha", "0"⟩],
        Element.mediumInterface "inner" "outer"], scopeNeutral d = true) ∧
    ∃ cfg2, runElems initConfig (Element.attributeBegin ::
        [Element.translate 1 0 0, Element.reverseOrientation,
          Element.material "diffuse" [], Element.attributeEl "shape" [⟨"alpha", "0"⟩],
          Element.mediumInterface "inner" "outer"] ++ [Element.attributeEnd]) = .ok cfg2 ∧
      cfg2.state = initConfig.state ∧ cfg2.states_stack = initConfig.states_stack :=
  ⟨by decide,
    attribute_block_restores_state initConfig
      [Element.translate 1 0 0, Element.reverseOrientation,
        Element.material "diffuse" [], Element.attributeEl "shape" [⟨"alpha", "0"⟩],
        Element.mediumInterface "inner" "outer"] (by decide)⟩

/-- Claim C3: transform directives post-multiply the current transform:
after `Translate(1,0,0)` then `Scale(2,2,2)` the CTM equals the prior matrix
times the translation matrix times the scale matrix, in that order (and that
order differs from the pre-multiplied one); `Transform` replaces the CTM
outright and `Identity` resets it to the identity. -/
theorem transform_directives_post_multiply (cfg : Config) :
    (∃ cfg2, runElems cfg [Element.translate 1 0 0, Element.scale 2 2 2] = .ok cfg2 ∧
      cfg2.state.transform_matrix =
        (cfg.state.transform_matrix.mul (Mat4.fromTranslation 1 0 0)).mul
          (Mat4.fromScale 2 2 2)) ∧
    (∀ m : Mat4, ∃ cfg2, runElems cfg [Element.transform m] = .ok cfg2 ∧
      cfg2.state.transform_matrix = m) ∧
    (∃ cfg2, runElems cfg [Element.identity] = .ok cfg2 ∧
      cfg2.state.transform_matrix = Mat4.id) ∧
    (Mat4.fromTranslation 1 0 0).mul (Mat4.fromScale 2 2 2) ≠
      (Mat4.fromScale 2 2 2).mul (Mat4.fromTranslation 1 0 0) := by
  refine ⟨⟨_, rfl, rfl⟩, fun m => ⟨_, rfl, rfl⟩, ⟨_, rfl, rfl⟩, ?_⟩
  intro h
  have h2 := congrFun (congrFun h 0) 3
  simp [Mat4.mul, Mat4.fromTranslation, Mat4.fromScale] at h2

/-- Claim C4 (refuting evidence): on an input exhausted with a non-empty
graphics-state stack and no `WorldBegin`, `load` still returns the `Scene`:
the loop exit carries only `debug_assert!`s, which are no-ops in release
builds and panics (not error values) in debug builds, so no fatal structural
error value is ever returned. -/
theorem load_ok_despite_unbalanced_scope :
    ∃ cfg, runElems initConfig [Element.attributeBegin] = .ok cfg ∧
      cfg.states_stack = [initConfig.state] ∧
      cfg.is_world_block = false ∧
      load [Element.attributeBegin] = .ok cfg.scene :=
  ⟨_, rfl, rfl, rfl, rfl⟩

/-- Claim C5 counterexample: an input with two `Camera` directives loads
successfully and the stored camera is the second one, so a repeated `Camera`
is not caught by any guard. -/
theorem two_cameras_load_succeeds :
    ∃ s, load [Element.camera "perspective" [], Element.camera "orthographic" []]
        = .ok s ∧
      ∃ c, s.camera = some c ∧ c.params.ty = "orthographic" :=
  ⟨_, rfl, _, rfl, rfl⟩

/-- Claim C5 as amended: the `Camera` arm has no repetition guard; a second
`Camera` directive silently overwrites the stored camera entity with the new
one (built from the inverse of the current transform). -/
theorem second_camera_silently_overwrites (cfg : Config) (ty1 ty2 : String)
    (p1 p2 : ParamList) :
    ∃ cfg2, runElems cfg [Element.camera ty1 p1, Element.camera ty2 p2] = .ok cfg2 ∧
      cfg2.scene.camera = some ⟨⟨ty2, p2⟩, cfg.state.transform_matrix.inverse⟩ :=
  ⟨_, rfl, rfl⟩

/-- Claim C6 (divergence evidence): `CoordSysTransform` on a never-recorded
name hits the `unimplemented!()` panic in the `None` lookup branch (despite
the adjacent TODO saying to return an error), so the load aborts by panic
rather than terminating with the `NotFound` error value the claim names. -/
theorem coord_sys_transform_unknown_panics :
    load [Element.coordSysTransform "missing"] = .error Error.panicUnimplemented ∧
    Error.panicUnimplemented ≠ Error.notFound :=
  ⟨rfl, by decide⟩

/-- Claim C7: `ObjectInstance` on a name never registered by `ObjectBegin`
fails with `NotFound` before any mutation: the step produces no successor
session state, and the whole remaining load aborts with `NotFound`, so no
partial scene mutation from the directive is surfaced. -/
theorem object_instance_unknown_not_found (cfg : Config) (name : String)
    (rest : List Element) (h : tblGet cfg.named_objects name = none) :
    stepElement cfg (Element.objectInstance name) = .error Error.notFound ∧
    runElems cfg (Element.objectInstance name :: rest) = .error Error.notFound := by
  have h1 : stepElement cfg (Element.objectInstance name) = .error Error.notFound := by
    simp [stepElement, h]
  exact ⟨h1, by simp [runElems, h1]⟩

/-- Witness for claim C7 at the spec's own example name `missing` in an
empty session. -/
theorem object_instance_unknown_not_found_witness :
    tblGet initConfig.named_objects "missing" = none ∧
    (stepElement initConfig (Element.objectInstance "missing") = .error Error.notFound ∧
     runElems initConfig [Element.objectInstance "missing"] = .error Error.notFound) :=
  ⟨rfl, object_instance_unknown_not_found initConfig "missing" [] rfl⟩

theorem ParamList.lookup_extend (p ov : ParamList) (n : String) (v : String)
    (h : p.lookup n = some v) : (p.extend ov).lookup n = some v := by
  induction p with
  | nil => simp [ParamList.lookup] at h
  | cons q rest ih =>
      rw [ParamList.lookup] at h
      show ParamList.lookup (q :: (rest ++ ov)) n = some v
      rw [ParamList.lookup]
      by_cases hq : q.name = n
      · rw [if_pos hq] at h ⊢
        exact h
      · rw [if_neg hq] at h ⊢
        exact ih h

/-- Claim C8: each entity-defining directive (`Texture`, `Material`,
`MakeNamedMaterial`, `AreaLightSource`, `Shape`, `MakeNamedMedium`) hands its
constructor the explicit parameter list extended with the pending overlay of
its kind appended after it, and a name present in both keeps its
explicitly-given value under first-match lookup. -/
theorem pending_overlay_merge (cfg : Config) (nm ty cls : String) (p : ParamList) :
    (∃ c, stepElement cfg (Element.texture nm ty cls p) = .ok c ∧
      c.scene.textures = cfg.scene.textures ++
        [⟨nm, ty, cls, p.extend cfg.state.texture_params⟩]) ∧
    (∃ c, stepElement cfg (Element.material ty p) = .ok c ∧
      c.scene.materials = cfg.scene.materials ++ [⟨ty, p.extend cfg.state.material_params⟩]) ∧
    (∃ c, stepElement cfg (Element.makeNamedMaterial nm p) = .ok c ∧
      c.scene.materials = cfg.scene.materials ++ [⟨nm, p.extend cfg.state.material_params⟩]) ∧
    (∃ c, stepElement cfg (Element.areaLightSource ty p) = .ok c ∧
      c.scene.area_lights = cfg.scene.area_lights ++
        [⟨ty, p.extend cfg.state.light_params⟩]) ∧
    (∃ c, stepElement cfg (Element.shape ty p) = .ok c ∧
      c.scene.shapes = cfg.scene.shapes ++
        [⟨⟨ty, p.extend cfg.state.shape_params⟩, cfg.state.transform_matrix,
          cfg.state.reverse_orientation, cfg.state.material_index,
          cfg.state.area_light_index⟩]) ∧
    (∃ c, stepElement cfg (Element.makeNamedMedium nm p) = .ok c ∧
      c.scene.mediums = cfg.scene.mediums ++ [⟨p.extend cfg.state.medium_params⟩]) ∧
    (∀ (ov : ParamList) (n v : String), p.lookup n = some v →
      (p.extend ov).lookup n = some v) := by
  refine ⟨⟨_, rfl, rfl⟩, ⟨_, rfl, rfl⟩, ⟨_, rfl, rfl⟩, ⟨_, rfl, rfl⟩, ?_,
    ⟨_, rfl, rfl⟩, fun ov n v h => ParamList.lookup_extend p ov n v h⟩
  cases hA : cfg.state.active_object.isSome with
  | false =>
      exact ⟨{ cfg with scene := { cfg.scene with shapes := cfg.scene.shapes ++
          [⟨⟨ty, p.extend cfg.state.shape_params⟩, cfg.state.transform_matrix,
            cfg.state.reverse_orientation, cfg.state.material_index,
            cfg.state.area_light_index⟩] } },
        by simp [stepElement, hA], rfl⟩
  | true =>
      exact ⟨{ cfg with
          scene := { cfg.scene with shapes := cfg.scene.shapes ++
            [⟨⟨ty, p.extend cfg.state.shape_params⟩, cfg.state.transform_matrix,
              cfg.state.reverse_orientation, cfg.state.material_index,
              cfg.state.area_light_index⟩] },
          state := { cfg.state with shape_count := cfg.state.shape_count + 1 } },
        by simp [stepElement, hA], rfl⟩

/-- Witness for claim C8: a parameter named `sigma` present in both the
explicit list and the overlay keeps its explicit value after the merge. -/
theorem pending_overlay_merge_witness :
    ParamList.lookup [⟨"sigma", "explicit"⟩] "sigma" = some "explicit" ∧
    ParamList.lookup (ParamList.extend [⟨"sigma", "explicit"⟩] [⟨"sigma", "overlay"⟩])
      "sigma" = some "explicit" :=
  ⟨by decide,
    (pending_overlay_merge initConfig "n" "t" "c" [⟨"sigma", "explicit"⟩]).2.2.2.2.2.2
      [⟨"sigma", "overlay"⟩] "sigma" "explicit" (by decide)⟩

theorem takeWhile_prop {α : Type} (p : α → Bool) (l : List α) :
    ∀ a ∈ l.takeWhile p, p a = true := by
  induction l with
  | nil => intro a ha; simp [List.takeWhile] at ha
  | cons x xs ih =>
      intro a ha
      cases hpx : p x with
      | false => simp [List.takeWhile_cons, hpx] at ha
      | true =>
          simp only [List.takeWhile_cons, hpx, if_true] at ha
          rcases List.mem_cons.mp ha with h | h
          · rw [h]; exact hpx
          · exact ih a h

theorem no_dot_in_afterLastDot (f : List Char) : '.' ∉ afterLastDot f := by
  intro hmem
  rw [afterLastDot, List.mem_reverse] at hmem
  have := takeWhile_prop (fun c => c ≠ '.') f.reverse '.' hmem
  simp at this

theorem strEndsWith_mem (s suffix : List Char) (h : strEndsWith s suffix = true) :
    ∀ a ∈ suffix, a ∈ s := by
  intro a ha
  have h2 : s.drop (s.length - suffix.length) = suffix := by
    simpa [strEndsWith] using h
  rw [← h2] at ha
  exact List.drop_subset _ _ ha

theorem gzip_check_never_fires (p : List Char) : gzipSuffixCheck p = false := by
  cases hE : extensionOf (fileNamePart p) with
  | none => simp [gzipSuffixCheck, hE]
  | some ext =>
      have hne : ext = afterLastDot (fileNamePart p) := by
        by_cases hd : '.' ∈ (fileNamePart p).drop 1
        · rw [extensionOf, if_pos hd] at hE
          injection hE with h
          exact h.symm
        · rw [extensionOf, if_neg hd] at hE
          cases hE
      subst hne
      simp only [gzipSuffixCheck, hE]
      by_contra hS
      rw [Bool.not_eq_false] at hS
      exact no_dot_in_afterLastDot _ (strEndsWith_mem _ _ hS '.' (by simp))

/-- Claim C9 (divergence evidence): the gzip test of the `Include` arm
compares `Path::extension` (the portion after the final dot, which never
contains a dot) with the suffix `".gz"` (which contains one), so the check
is false on every path: a gzip include such as `subdir/scene.gz`, whose
extension is computed as `gz`, is never rejected and its raw contents
proceed to parsing; even the rejecting branch is a `todo!` panic, not an
`UnsupportedFeature` error value. -/
theorem gzip_include_never_rejected :
    (∀ p : List Char, includeGzipGate p = .ok ()) ∧
    extensionOf (fileNamePart ("subdir/scene.gz".toList)) = some ("gz".toList) ∧
    gzipSuffixCheck ("subdir/scene.gz".toList) = false ∧
    includeGzipGate ("subdir/scene.gz".toList) = .ok () := by
  refine ⟨fun p => ?_, rfl, rfl, rfl⟩
  simp [includeGzipGate, gzip_check_never_fires]

/-- Claim C10: `WorldBegin` changes exactly two things: it sets the
world-block flag and resets the current transform to the identity; the
record-update equation shows every other graphics-state field, the scene,
the stack and all named tables unchanged. -/
theorem world_begin_sets_flag_and_identity (cfg : Config) :
    stepElement cfg Element.worldBegin = .ok
      { cfg with
        is_world_block := true,
        state := { cfg.state with transform_matrix := Mat4.id } } := rfl


theorem initConfig_ok : configOk initConfig :=
  ⟨fun _ => rfl, fun s hs => absurd hs (List.not_mem_nil s)⟩

theorem stepElement_preserves_ok {cfg cfg2 : Config} {e : Element}
    (h : configOk cfg) (hstep : stepElement cfg e = .ok cfg2) : configOk cfg2 := by
  obtain ⟨h1, h2⟩ := h
  cases e
  case attributeBegin =>
    simp only [stepElement] at hstep
    injection hstep with h3
    subst h3
    refine ⟨h1, fun s hs => ?_⟩
    rcases List.mem_cons.mp hs with h4 | h4
    · subst h4; exact h1
    · exact h2 s h4
  case attributeEnd =>
    cases hS : cfg.states_stack with
    | nil => simp [stepElement, hS] at hstep
    | cons s rest =>
        simp only [stepElement, hS] at hstep
        injection hstep with h3
        subst h3
        refine ⟨h2 s ?_, fun t ht => h2 t ?_⟩
        · rw [hS]; exact List.mem_cons_self _ _
        · rw [hS]; exact List.mem_cons_of_mem _ ht
  case coordSysTransform nm =>
    cases hG : tblGet cfg.named_coord_systems nm with
    | none => simp [stepElement, hG] at hstep
    | some m =>
        simp only [stepElement, hG] at hstep
        injection hstep with h3
        subst h3
        exact ⟨h1, h2⟩
  case transformTimes a b =>
    cases hW : cfg.is_world_block with
    | true => simp [stepElement, hW] at hstep
    | false =>
        simp only [stepElement, hW, Bool.false_eq_true, if_false] at hstep
        injection hstep with h3
        subst h3
        exact ⟨h1, h2⟩
  case shape ty p =>
    cases hA : cfg.state.active_object with
    | none =>
        simp only [stepElement, hA, Option.isSome_none, Bool.false_eq_true, if_false]
          at hstep
        injection hstep with h3
        subst h3
        exact ⟨h1, h2⟩
    | some k =>
        simp only [stepElement, hA, Option.isSome_some, if_true] at hstep
        injection hstep with h3
        subst h3
        refine ⟨fun hn => ?_, h2⟩
        simp at hn
  case objectBegin nm =>
    cases hA : cfg.state.active_object with
    | some k => simp [stepElement, hA] at hstep
    | none =>
        simp only [stepElement, hA, Option.isSome_none, Bool.false_eq_true, if_false]
          at hstep
        injection hstep with h3
        subst h3
        refine ⟨fun hn => ?_, fun s hs => ?_⟩
        · simp at hn
        · rcases List.mem_cons.mp hs with h4 | h4
          · subst h4; exact h1
          · exact h2 s h4
  case objectEnd =>
    cases hA : cfg.state.active_object with
    | none => simp [stepElement, hA] at hstep
    | some oi =>
        cases hG : cfg.scene.objects[oi]? with
        | none => simp [stepElement, hA, hG] at hstep
        | some obj =>
            cases hS : cfg.states_stack with
            | nil => simp [stepElement, hA, hG, hS] at hstep
            | cons s rest =>
                simp only [stepElement, hA, hG, hS] at hstep
                injection hstep with h3
                subst h3
                refine ⟨h2 s ?_, fun t ht => h2 t ?_⟩
                · rw [hS]; exact List.mem_cons_self _ _
                · rw [hS]; exact List.mem_cons_of_mem _ ht
  case objectInstance nm =>
    cases hG : tblGet cfg.named_objects nm with
    | none => simp [stepElement, hG] at hstep
    | some oi =>
        simp only [stepElement, hG] at hstep
        injection hstep with h3
        subst h3
        exact ⟨h1, h2⟩
  case attributeEl t p =>
    simp only [stepElement] at hstep
    split at hstep <;>
      first
        | exact Except.noConfusion hstep
        | (injection hstep with h3; subst h3; exact ⟨h1, h2⟩)
  all_goals
    simp only [stepElement] at hstep
  all_goals
    first
      | exact Except.noConfusion hstep
      | (injection hstep with h3; subst h3; exact ⟨h1, h2⟩)

theorem runElems_preserves_ok : ∀ (es : List Element) (cfg cfg2 : Config),
    configOk cfg → runElems cfg es = .ok cfg2 → configOk cfg2 := by
  intro es
  induction es with
  | nil =>
      intro cfg cfg2 h hrun
      injection hrun with h3
      subst h3
      exact h
  | cons e rest ih =>
      intro cfg cfg2 h hrun
      cases hstep : stepElement cfg e with
      | error err => simp [runElems, hstep] at hrun
      | ok c =>
          simp only [runElems, hstep] at hrun
          exact ih c cfg2 (stepElement_preserves_ok h hstep) hrun

/-- Claim C1: in any load, a successful `ObjectBegin`, `n` `Shape`
directives and `ObjectEnd` leave the object with `shape_count = n` and, when
`n` is nonzero, `shape_start = len(shapes) - n`, the start of the contiguous
tail of `Scene.shapes` holding those `n` shapes (`shape_start` stays `None`
when `n = 0`). -/
theorem object_block_captures_range (es : List Element) (cfg : Config)
    (nm : String) (ds : List Element)
    (hreach : runElems initConfig es = .ok cfg)
    (hao : cfg.state.active_object = none)
    (hds : ∀ d ∈ ds, isShapeElem d = true) :
    ∃ cfg2 obj,
      runElems cfg (Element.objectBegin nm :: ds ++ [Element.objectEnd]) = .ok cfg2 ∧
      cfg2.scene.objects[cfg.scene.objects.length]? = some obj ∧
      obj.shape_count = ds.length ∧
      obj.shape_start = (if ds.length = 0 then none else some cfg.scene.shapes.length) ∧
      cfg2.scene.shapes.length = cfg.scene.shapes.length + ds.length ∧
      cfg2.state = cfg.state := by
  have hok := runElems_preserves_ok es initConfig cfg initConfig_ok hreach
  exact object_block_aux cfg nm ds hao (hok.1 hao) hds


/-- Witness for claim C1: the claim's own concrete example, an
otherwise-empty scene with two `Shape` directives inside the block, ending
with `shape_count = 2` and `shape_start = Some(0)`. -/
theorem object_block_captures_range_witness :
    runElems initConfig [] = .ok initConfig ∧
    initConfig.state.active_object = none ∧
    (∀ d ∈ [Element.shape "sphere" [], Element.shape "sphere" []], isShapeElem d = true) ∧
    ∃ cfg2 obj,
      runElems initConfig (Element.objectBegin "foo" ::
        [Element.shape "sphere" [], Element.shape "sphere" []] ++ [Element.objectEnd])
        = .ok cfg2 ∧
      cfg2.scene.objects[0]? = some obj ∧
      obj.shape_count = 2 ∧
      obj.shape_start = some 0 ∧
      cfg2.scene.shapes.length = 2 ∧
      cfg2.state = initConfig.state :=
  ⟨rfl, rfl, by decide,
    object_block_captures_range [] initConfig "foo"
      [Element.shape "sphere" [], Element.shape "sphere" []] rfl rfl (by decide)⟩

end Pbrt
